import Mathlib

/-!
Verification of the data-block engine of `bikeshed/datablocks.py`.

The Python source is shallowly embedded: strings are `List Char` (so that
the regex-based operations of the source become ordinary recursive
functions), Python dict/OrderedDict values are insertion-ordered
association lists, the non-fatal `die(...)` diagnostics sink accumulates
structured error records, and runtime exceptions (KeyError and friends)
are modelled with `Except`.  External collaborators (the JSON parser,
`config.simplifyText`, the railroad renderer) are passed in as function
parameters, mirroring the narrow interfaces the source calls through.
-/

namespace Datablocks

/-- Python strings, modelled as lists of characters. -/
abbrev Str := List Char

/-- Shorthand to write string constants of the model. -/
def str (s : String) : Str := s.toList

/-- The whitespace class of Python `str.strip` / regex `\s`. -/
def pyIsSpace (c : Char) : Bool :=
  c == ' ' || c == '\t' || c == '\n' || c == '\r' || c == '\x0b' || c == '\x0c'

/-- Python `str.lstrip()`. -/
def pyLstrip (s : Str) : Str := s.dropWhile pyIsSpace

/-- Python `str.rstrip()`. -/
def pyRstrip (s : Str) : Str := (s.reverse.dropWhile pyIsSpace).reverse

/-- Python `str.strip()`. -/
def pyStrip (s : Str) : Str := pyRstrip (pyLstrip s)

/-- Python `str.lower()`. -/
def pyLower (s : Str) : Str := s.map Char.toLower

/-- Python `str.capitalize()`: first character uppercased, the rest lowercased. -/
def pyCapitalize (s : Str) : Str :=
  match s with
  | [] => []
  | c :: rest => c.toUpper :: rest.map Char.toLower

/-- `line.strip() == ""`, the blank-line test of the source. -/
def isBlank (l : Str) : Bool := (pyStrip l).isEmpty

/-- `line.replace("\t", "  ")`: tabs become two spaces. -/
def expandTabs (l : Str) : Str :=
  l.flatMap fun c => if c == '\t' then [' ', ' '] else [c]

/-- `len(re.match(r" *", line).group(0))`: length of the leading run of spaces. -/
def leadingSpaces (l : Str) : Nat := (l.takeWhile (fun c => c == ' ')).length

/-- `re.sub(r"\s+", " ", s)`: each maximal whitespace run becomes one space. -/
def collapseWsAux : Bool → Str → Str
  | _, [] => []
  | prevWs, c :: rest =>
    if pyIsSpace c then
      if prevWs then collapseWsAux true rest else ' ' :: collapseWsAux true rest
    else c :: collapseWsAux false rest

def collapseWs (s : Str) : Str := collapseWsAux false s

/-- Python substring test `pat in s`. -/
def strIn (pat : Str) : Str → Bool
  | [] => pat.isEmpty
  | c :: rest => pat.isPrefixOf (c :: rest) || strIn pat rest

/-- Python `s.split(sep)` for a one-character separator. -/
def splitOnChar (sep : Char) : Str → List Str
  | [] => [[]]
  | c :: rest =>
    let r := splitOnChar sep rest
    if c == sep then [] :: r
    else match r with
      | [] => [[c]]
      | p :: ps => (c :: p) :: ps

/-- `"".join(lines)`. -/
def joinAll (lines : List Str) : Str := lines.flatten

/-- `sep.join(parts)`. -/
def joinSep (sep : Str) (parts : List Str) : Str := List.intercalate sep parts

/-! ## Insertion-ordered association maps

Python 2 `OrderedDict` (and, for the anchor descriptors, plain `dict`
restricted to the operations the source performs by key).  `aset`
updates an existing key in place and otherwise appends, `adel` removes
a key, mirroring `d[k] = v` and `del d[k]`. -/

def aget {α : Type} (d : List (Str × α)) (k : Str) : Option α :=
  match d with
  | [] => none
  | (k', v) :: rest => if k' = k then some v else aget rest k

def ahas {α : Type} (d : List (Str × α)) (k : Str) : Bool := (aget d k).isSome

def agetD {α : Type} (d : List (Str × α)) (k : Str) (dflt : α) : α := (aget d k).getD dflt

def aset {α : Type} (d : List (Str × α)) (k : Str) (v : α) : List (Str × α) :=
  match d with
  | [] => [(k, v)]
  | (k', v') :: rest => if k' = k then (k', v) :: rest else (k', v') :: aset rest k v

def adel {α : Type} (d : List (Str × α)) (k : Str) : List (Str × α) :=
  match d with
  | [] => []
  | (k', v') :: rest => if k' = k then rest else (k', v') :: adel rest k

/-- Ordered key-to-string records produced by `parseDefBlock`. -/
abbrev ODict := List (Str × Str)

/-! ## Structured diagnostics

Each `die(...)` call site of the source becomes one constructor carrying
the formatted arguments; the surrounding fixed message text is elided. -/

/-- JSON values, as delivered by the external `json.loads` collaborator. -/
inductive JValue where
  | s (v : Str)
  | i (n : Int)
  | b (v : Bool)
  | null
  | arr (xs : List JValue)
  | obj (kvs : List (Str × JValue))

/-- Anchor descriptors: JSON objects, as ordered association lists. -/
abbrev JDict := List (Str × JValue)

inductive Msg where
  /-- `die("Incorrectly formatted {2} line for '{0}':\n{1}", ...)` in `parseDefBlock`. -/
  | badDefLine (kind : Str) (name : Str) (line : Str)
  /-- `die("The <kind> for '{0}' is missing a '{1}' line.", name, key)`. -/
  | missingLine (kind : Str) (name : Str) (key : Str)
  /-- `die("JSON parse error:\n{0}", e)` in `transformAnchors`. -/
  | jsonParseError (e : Str)
  /-- `die("Inline anchor for '{0}' is missing the '{1}' field.", key, field)`. -/
  | anchorMissingField (key : JValue) (field : Str)
  /-- `die("Field '{1}' of inline anchor for '{0}' must be a {3}. ...", ...)` in `checkTypes`. -/
  | anchorWrongType (key : JValue) (field : Str)
  /-- `die("Field 'status' of inline anchor for '{0}' must be 'current', 'dated', or 'local'. ...")`. -/
  | anchorBadStatus (key : JValue) (status : Str)
  /-- `die("All of the values for field '{1}' of inline anchor for '{0}' must be strings. ...")`. -/
  | anchorNonStringEntry (key : JValue) (field : Str)

/-! ## `parseDefBlock` -/

/-- The line regex `\s*([^:]+):\s*(\S.*)` of `parseDefBlock`, reduced to its
deterministic meaning: the match succeeds iff the line has a colon at an
index of at least 1 and some non-whitespace character after it; the key is
`group(1).strip().capitalize()` (equal to stripping and capitalizing all
text before the first colon) and the value is `group(2).strip()` (equal to
stripping all text after that colon). -/
def defLineMatch (line : Str) : Option (Str × Str) :=
  match line.findIdx? (fun c => c == ':') with
  | none => none
  | some j =>
    if j == 0 then none
    else
      let val := pyStrip (line.drop (j + 1))
      if val.isEmpty then none
      else some (pyCapitalize (pyStrip (line.take j)), val)

/-- `vals[key] += "\n" + val` when the key exists, else `vals[key] = val`. -/
def recordVal (vals : ODict) (key val : Str) : ODict :=
  match aget vals key with
  | some old => aset vals key (old ++ '\n' :: val)
  | none => aset vals key val

def parseDefBlockLoop (kind : Str) :
    List Str → ODict → Option Str → List Msg → ODict × List Msg
  | [], vals, _, errs => (vals, errs)
  | line :: rest, vals, lastKey, errs =>
    match defLineMatch line with
    | none =>
      match lastKey with
      | some k =>
        if isBlank line || (match line with | [] => false | c :: _ => pyIsSpace c) then
          parseDefBlockLoop kind rest (recordVal vals k (pyStrip line)) lastKey errs
        else
          parseDefBlockLoop kind rest vals lastKey
            (errs ++ [Msg.badDefLine kind (agetD vals (str "Name") (str "???")) line])
      | none =>
        parseDefBlockLoop kind rest vals lastKey
          (errs ++ [Msg.badDefLine kind (agetD vals (str "Name") (str "???")) line])
    | some (key, val) =>
      parseDefBlockLoop kind rest (recordVal vals key val) (some key) errs

/-- `parseDefBlock(lines, type)`: generic `Key: value` extraction. -/
def parseDefBlock (lines : List Str) (kind : Str) : ODict × List Msg :=
  parseDefBlockLoop kind lines [] none []

/-! ## `transformPropdef` -/

/-- One `<tr>` row; `Value` and `New values` cells carry `class='prod'`. -/
def propdefRow (key val : Str) : Str :=
  if key = str "Value" || key = str "New values" then
    str "<tr><th>" ++ key ++ str ":<td class=\x27prod\x27>" ++ val
  else
    str "<tr><th>" ++ key ++ str ":<td>" ++ val

/-- The schema loop shared shape: `None` marks a required field, `some d`
an optional field with default `d`. -/
def propdefAttrs (firstLine : Str) (parsedAttrs : ODict) : List (Str × Option Str) :=
  if strIn (str "partial") firstLine || ahas parsedAttrs (str "New values") then
    [(str "Name", none), (str "New values", none)]
  else if strIn (str "shorthand") firstLine then
    [(str "Name", none), (str "Value", none)] ++
      ([str "Initial", str "Applies to", str "Inherited", str "Percentages",
        str "Media", str "Computed value", str "Animatable"].map
        (fun k => (k, some (str "see individual properties"))))
  else
    [(str "Name", none), (str "Value", none), (str "Initial", none),
     (str "Applies to", some (str "all elements")), (str "Inherited", none),
     (str "Percentages", some (str "n/a")), (str "Media", some (str "visual")),
     (str "Computed value", some (str "as specified")),
     (str "Animatable", some (str "no"))]

def propdefHead (firstLine : Str) (parsedAttrs : ODict) : Str :=
  if strIn (str "partial") firstLine || ahas parsedAttrs (str "New values") then
    str "<table class=\x27definition propdef partial\x27>"
  else
    str "<table class=\x27definition propdef\x27>"

/-- The schema rendering loop of `transformPropdef` (source lines 176-185). -/
def propdefLoop (parsedAttrs : ODict) :
    List (Str × Option Str) → List Str → List Msg → List Str × List Msg
  | [], rows, errs => (rows, errs)
  | (key, dflt) :: rest, rows, errs =>
    if ahas parsedAttrs key || dflt.isSome then
      let v := match aget parsedAttrs key with
        | some pv => pv
        | none => dflt.getD []
      propdefLoop parsedAttrs rest (rows ++ [propdefRow key v]) errs
    else
      propdefLoop parsedAttrs rest rows
        (errs ++ [Msg.missingLine (str "propdef") (agetD parsedAttrs (str "Name") (str "???")) key])

/-- The trailing loop: any record key not in the schema gives a plain row. -/
def extraRows (parsedAttrs : ODict) (schemaKeys : List Str) : List Str :=
  (parsedAttrs.filter (fun kv => !(schemaKeys.contains kv.1))).map
    (fun kv => str "<tr><th>" ++ kv.1 ++ str ":<td>" ++ kv.2)

/-- `transformPropdef` after `parseDefBlock`: render one table from the record. -/
def propdefTable (parsedAttrs : ODict) (firstLine : Str) : List Str × List Msg :=
  let attrs := propdefAttrs firstLine parsedAttrs
  let (rows, errs) := propdefLoop parsedAttrs attrs [] []
  (propdefHead firstLine parsedAttrs :: rows
     ++ extraRows parsedAttrs (attrs.map Prod.fst) ++ [str "</table>"], errs)

/-- `transformPropdef(lines, doc, firstLine)`. -/
def transformPropdef (lines : List Str) (firstLine : Str) : List Str × List Msg :=
  let (parsedAttrs, perrs) := parseDefBlock lines (str "propdef")
  let (out, errs) := propdefTable parsedAttrs firstLine
  (out, perrs ++ errs)

/-! ## `transformDescdef` -/

/-- The required-keys rendering loop of `transformDescdef` (source lines 206-215). -/
def descdefLoop (vals : ODict) :
    List Str → List Str → List Msg → List Str × List Msg
  | [], rows, errs => (rows, errs)
  | key :: rest, rows, errs =>
    if key = str "For" then
      descdefLoop vals rest
        (rows ++ [str "<tr><th>" ++ key ++ str ":<td><a at-rule>" ++ agetD vals key [] ++ str "</a>"]) errs
    else if key = str "Value" then
      descdefLoop vals rest
        (rows ++ [str "<tr><th>" ++ key ++ str ":<td class=\x27prod\x27>" ++ agetD vals key []]) errs
    else if ahas vals key then
      descdefLoop vals rest
        (rows ++ [str "<tr><th>" ++ key ++ str ":<td>" ++ agetD vals key []]) errs
    else
      descdefLoop vals rest rows
        (errs ++ [Msg.missingLine (str "descdef") (agetD vals (str "Name") (str "???")) key])

/-- The table body of `transformDescdef`, after `parseDefBlock`.

NOTE on fidelity: the source (lines 197-205) reads

    if "partial" in firstLine or "New values" in vals: requiredKeys = ...; ret = ...
    if "mq" in firstLine: ... else: ...

The first `if` is not an `elif` of the second, and both branches of the
second `if`/`else` rebind `requiredKeys` and `ret`, so the assignments of
the first `if` are dead stores.  The dead bindings are kept below
(underscored) to mirror the source. -/
def descdefTable (vals : ODict) (firstLine : Str) : List Str × List Msg :=
  let _requiredKeys0 :=
    if strIn (str "partial") firstLine || ahas vals (str "New values") then
      some [str "Name", str "For"] else none
  let _ret0 :=
    if strIn (str "partial") firstLine || ahas vals (str "New values") then
      some (str "<table class=\x27definition descdef partial\x27 data-dfn-for=\x27" ++
            agetD vals (str "For") [] ++ str "\x27>") else none
  let (requiredKeys, head) :=
    if strIn (str "mq") firstLine then
      ([str "Name", str "For", str "Value"],
       str "<table class=\x27definition descdef mq\x27 data-dfn-for=\x27" ++
         agetD vals (str "For") [] ++ str "\x27>")
    else
      ([str "Name", str "For", str "Value", str "Initial"],
       str "<table class=\x27definition descdef\x27 data-dfn-for=\x27" ++
         agetD vals (str "For") [] ++ str "\x27>")
  let (rows, errs) := descdefLoop vals requiredKeys [] []
  -- `for key in vals.viewkeys() - requiredKeys`: a Python 2 set difference,
  -- whose iteration order is unspecified; modelled in record order.
  let extras := (vals.filter (fun kv => !(requiredKeys.contains kv.1))).map
    (fun kv => str "<tr><th>" ++ kv.1 ++ str ":<td>" ++ kv.2)
  (head :: rows ++ extras ++ [str "</table>"], errs)

/-- `transformDescdef(lines, doc, firstLine)`. -/
def transformDescdef (lines : List Str) (firstLine : Str) : List Str × List Msg :=
  let (vals, perrs) := parseDefBlock lines (str "descdef")
  let (out, errs) := descdefTable vals firstLine
  (out, perrs ++ errs)

/-! ## `transformElementdef` -/

/-- The attribute-list merge of `transformElementdef` (source lines 224-236). -/
def elementdefMergeAttrs (parsedAttrs : ODict) : ODict :=
  if ahas parsedAttrs (str "Attribute groups") || ahas parsedAttrs (str "Attributes") then
    let html0 := str "<ul>"
    let (html1, parsed1) :=
      match aget parsedAttrs (str "Attribute groups") with
      | some gval =>
        let groups := (splitOnChar ',' gval).map pyStrip
        (html0 ++ joinAll (groups.map fun g =>
           str "<li><a dfn data-element-attr-group>" ++ g ++ str "</a>"),
         adel parsedAttrs (str "Attribute groups"))
      | none => (html0, parsedAttrs)
    let html2 :=
      match aget parsed1 (str "Attributes") with
      | some aval =>
        let atts := (splitOnChar ',' aval).map pyStrip
        html1 ++ joinAll (atts.map fun a => str "<li><a element-attr>" ++ a ++ str "</a>")
      | none => html1
    aset parsed1 (str "Attributes") (html2 ++ str "</ul>")
  else parsedAttrs

def elementdefKeys : List Str :=
  [str "Name", str "Categories", str "Contexts", str "Content model",
   str "Attributes", str "Dom interfaces"]

/-- The schema rendering loop of `transformElementdef` (all fields required). -/
def elementdefLoop (parsedAttrs : ODict) :
    List Str → List Str → List Msg → List Str × List Msg
  | [], rows, errs => (rows, errs)
  | key :: rest, rows, errs =>
    match aget parsedAttrs key with
    | some v =>
      let newRows :=
        if key = str "Name" then
          [str "<tr><th>Name:<td>",
           joinSep (str ", ") (((splitOnChar ',' v).map pyStrip).map fun x =>
             str "<dfn element>" ++ x ++ str "</dfn>")]
        else if key = str "Content model" then
          (str "<tr><th>" ++ key ++ str ":<td>") :: splitOnChar '\n' v
        else if key = str "Categories" then
          [str "<tr><th>Categories:<td>",
           joinSep (str ", ") (((splitOnChar ',' v).map pyStrip).map fun x =>
             str "<a dfn>" ++ x ++ str "</a>")]
        else if key = str "Dom interfaces" then
          [str "<tr><th>DOM Interfaces:<td>",
           joinSep (str ", ") (((splitOnChar ',' v).map pyStrip).map fun x =>
             str "<a interface>" ++ x ++ str "</a>")]
        else
          [str "<tr><th>" ++ key ++ str ":<td>" ++ v]
      elementdefLoop parsedAttrs rest (rows ++ newRows) errs
    | none =>
      elementdefLoop parsedAttrs rest rows
        (errs ++ [Msg.missingLine (str "elementdef") (agetD parsedAttrs (str "Name") (str "???")) key])

/-- `transformElementdef(lines, doc)`. -/
def transformElementdef (lines : List Str) : List Str × List Msg :=
  let (parsed0, perrs) := parseDefBlock lines (str "elementdef")
  let parsedAttrs := elementdefMergeAttrs parsed0
  let (rows, errs) := elementdefLoop parsedAttrs elementdefKeys [] []
  let extras := (parsedAttrs.filter (fun kv => !(elementdefKeys.contains kv.1))).map
    (fun kv => str "<tr><th>" ++ kv.1 ++ str ":<td>" ++ kv.2)
  (str "<table class=\x27definition-table elementdef\x27>" :: rows ++ extras ++ [str "</table>"],
   perrs ++ errs)

/-! ## `transformPre` -/

/-- The tab-replacement part of the first `transformPre` loop
(source line 127): blank lines are skipped by the loop. -/
def dedentExpand (lines : List Str) : List Str :=
  lines.map fun l => if isBlank l then l else expandTabs l

/-- The minimum-leading-spaces computation of `transformPre`
(source lines 120-134): the minimum over the non-blank (tab-expanded)
lines, and 0 when every line is blank (`indent == float("inf")`). -/
def dedentIndent (expanded : List Str) : Nat :=
  match ((expanded.filter (fun l => !(isBlank l))).map leadingSpaces).min? with
  | some m => m
  | none => 0

/-- The tab-expansion, minimum-indent and dedent passes of `transformPre`
(source lines 120-140), applied to the content lines. -/
def dedentCore (lines : List Str) : List Str :=
  let expanded := dedentExpand lines
  expanded.map fun l => if isBlank l then l else l.drop (dedentIndent expanded)

/-- `re.match(r"\s*</code>\s*$", line)`: the line is `</code>` up to whitespace. -/
def isLoneCodeClose (l : Str) : Bool := pyStrip l = str "</code>"

/-- `transformPre(lines, tagName, firstLine)`. -/
def transformPre (lines : List Str) (tagName firstLine : Str) : List Str :=
  if lines.isEmpty then
    [firstLine, str "</" ++ tagName ++ str ">"]
  else
    let (lines, lastLine) :=
      if isLoneCodeClose (lines.getLastD []) then
        (lines.dropLast, str "</code></" ++ tagName ++ str ">")
      else
        (lines, str "</" ++ tagName ++ str ">")
    if lines.isEmpty then
      [firstLine, lastLine]
    else
      match dedentCore lines with
      | [] => [firstLine, lastLine]   -- unreachable: dedentCore preserves length
      | d :: ds => (pyRstrip firstLine ++ d) :: ds ++ [lastLine]

/-! ## `transformAnchors`

`doc.refs` is modelled by `DocState`: `refs` is the append-only reference
index (`doc.refs.refs[key].append(anchor)` becomes an appended
`(key, anchor)` event), `anchorMacros` the macro index
(`doc.refs.anchorMacros[key] = anchor`, update-or-append), `biblios` the
texts handed to the external biblio collaborator, and `msgs` the
accumulated diagnostics.  Uncaught Python exceptions become `Except.error`. -/

inductive PyErr where
  | keyError (k : Str)
  | unboundLocal          -- `key` read before its first assignment (source line 346)
  | attributeError
  | indexError
  | typeError
  | loopLimit             -- fuel exhaustion of the scan loop model; never hit, see `scanLoop`
deriving DecidableEq

structure DocState where
  refs : List (Str × JDict)
  anchorMacros : List (Str × JDict)
  biblios : List Str
  msgs : List Msg

def emptyDS : DocState := ⟨[], [], [], []⟩

def addMsg (st : DocState) (m : Msg) : DocState := { st with msgs := st.msgs ++ [m] }

def addMsgs (st : DocState) (ms : List Msg) : DocState := { st with msgs := st.msgs ++ ms }

def addRef (st : DocState) (k : Str) (a : JDict) : DocState :=
  { st with refs := st.refs ++ [(k, a)] }

def setMacro (st : DocState) (k : Str) (a : JDict) : DocState :=
  { st with anchorMacros := aset st.anchorMacros k a }

/-- Python truthiness of `anchor.get("anchor macro")` (absent gives `None`). -/
def jTruthy : Option JValue → Bool
  | none => false
  | some .null => false
  | some (.b v) => v
  | some (.i n) => !(n == 0)
  | some (.s s) => !s.isEmpty
  | some (.arr xs) => !xs.isEmpty
  | some (.obj kvs) => !kvs.isEmpty

/-- The mandatory-field check (source lines 344-347).  `die` is called with
the loop-local `key`, which at this point still holds the value from the
*previous* descriptor; on the first descriptor it is unbound and reading it
raises. -/
def reportMissing (keyPrev : Option JValue) (a : JDict) :
    List Str → DocState → Except PyErr DocState
  | [], st => .ok st
  | f :: fs, st =>
    if ahas a f then reportMissing keyPrev a fs st
    else
      match keyPrev with
      | none => .error .unboundLocal
      | some k => reportMissing keyPrev a fs (addMsg st (.anchorMissingField k f))

/-- `key = anchor['linkingText'] if isinstance(..., basestring) else list(anchor['linkingText'])[0]`. -/
def firstLinkingKey (a : JDict) : Except PyErr JValue :=
  match aget a (str "linkingText") with
  | none => .error (.keyError (str "linkingText"))
  | some (.s t) => .ok (.s t)
  | some (.arr []) => .error .indexError
  | some (.arr (x :: _)) => .ok x
  | some (.obj []) => .error .indexError
  | some (.obj ((k, _) :: _)) => .ok (.s k)
  | some _ => .error .typeError      -- `list(...)` of a non-iterable

/-- One pass of the `type` / `shortname` / `url` loop (source lines 352-355).
When the field is absent, `checkTypes` returns `True` and the subsequent
`anchor[field].strip()` raises `KeyError`. -/
def doStrField (key : JValue) (f : Str) (a : JDict) (st : DocState) :
    Except PyErr (JDict × DocState) :=
  match aget a f with
  | some (.s v) => .ok (aset a f (.s (pyStrip v ++ str "\n")), st)
  | some _ => .ok (a, addMsg st (.anchorWrongType key f))
  | none => .error (.keyError f)

/-- The `status` block (source lines 356-364).  Boolean result: the
descriptor is skipped (`continue` of the outer loop).  Note the comparison
`anchor['status'] == "current\n"` against the *raw* value. -/
def doStatus (key : JValue) (a : JDict) (st : DocState) :
    Except PyErr (JDict × DocState × Bool) :=
  match aget a (str "status") with
  | none => .ok (aset a (str "status") (.s (str "local")), st, false)
  | some (.s sv) =>
    if pyStrip sv = str "current" || pyStrip sv = str "dated" || pyStrip sv = str "local" then
      .ok (aset a (str "status")
             (.s (if sv = str "current\n" then str "ED\n" else str "TR\n")), st, false)
    else
      .ok (a, addMsg st (.anchorBadStatus key (pyStrip sv)), true)
  | some _ => .error .attributeError   -- `.strip()` on a non-string

/-- `unicode(...)` of the values `checkTypes(..., basestring, int)` accepts. -/
def intRepr (n : Int) : Str := (toString n).toList

/-- The `level` block (source lines 366-369). -/
def doLevel (key : JValue) (a : JDict) (st : DocState) :
    Except PyErr (JDict × DocState) :=
  match aget a (str "level") with
  | some (.s v) => .ok (aset a (str "level") (.s (pyStrip v ++ str "\n")), st)
  | some (.i n) => .ok (aset a (str "level") (.s (pyStrip (intRepr n) ++ str "\n")), st)
  | some (.b bv) =>   -- Python bools are ints; unicode(True) = "True"
    .ok (aset a (str "level") (.s (pyStrip (if bv then str "True" else str "False") ++ str "\n")), st)
  | some _ => .ok (a, addMsg st (.anchorWrongType key (str "level")))
  | none => .error (.keyError (str "level"))

/-- `anchor['spec'] = "{0}-{1}\n".format(anchor['shortname'].strip(), anchor['level'].strip())`. -/
def doSpec (a : JDict) : Except PyErr JDict :=
  match aget a (str "shortname"), aget a (str "level") with
  | some (.s sh), some (.s lv) =>
    .ok (aset a (str "spec") (.s (pyStrip sh ++ str "-" ++ pyStrip lv ++ str "\n")))
  | none, _ => .error (.keyError (str "shortname"))
  | some _, none => .error (.keyError (str "level"))
  | some _, some _ => .error .attributeError   -- `.strip()` on a non-string

/-- Entry normalization for a list-shaped `linkingText` / `for`
(source lines 380-385): non-string entries are reported and left as they
are; string entries get whitespace collapsed, stripped, newline-suffixed. -/
def normEntries (key : JValue) (f : Str) :
    List JValue → DocState → List JValue × DocState
  | [], st => ([], st)
  | e :: rest, st =>
    match e with
    | .s t =>
      let (tail, st') := normEntries key f rest st
      (.s (collapseWs (pyStrip t) ++ str "\n") :: tail, st')
    | other =>
      let (tail, st') := normEntries key f rest (addMsg st (.anchorNonStringEntry key f))
      (other :: tail, st')

/-- Key normalization for a dict-shaped `linkingText` (source lines 386-393):
iterate a snapshot of the items; per item set the fixed key then delete the
original one. -/
def normDictKeys (key : JValue) (f : Str) (kvs : List (Str × JValue)) (st : DocState) :
    List (Str × JValue) × DocState :=
  kvs.foldl
    (fun acc tv =>
      match tv.2 with
      | .s _ =>
        let fixed := collapseWs (pyStrip tv.1) ++ str "\n"
        (adel (aset acc.1 fixed tv.2) tv.1, acc.2)
      | _ => (acc.1, addMsg acc.2 (.anchorNonStringEntry key f)))
    (kvs, st)

/-- The `linkingText` / `for` shaping loop (source lines 373-393). -/
def doListField (key : JValue) (f : Str) (a : JDict) (st : DocState) :
    Except PyErr (JDict × DocState) :=
  match aget a f with
  | none => .ok (a, st)
  | some v =>
    -- `if isinstance(..., basestring): anchor[field] = [anchor[field]]`
    let lifted : JValue := match v with
      | .s t => .arr [.s t]
      | other => other
    match lifted with
    | .arr xs =>
      let (xs', st') := normEntries key f xs st
      .ok (aset a f (.arr xs'), st')
    | .obj kvs =>
      let (kvs', st') := normDictKeys key f kvs st
      .ok (aset a f (.obj kvs'), st')
    | _ => .ok (a, addMsg st (.anchorWrongType key f))   -- checkTypes fails, continue

/-- `anchor['url'] + suffix`: Python `+` on the stored field values. -/
def pyAdd (u suffix : JValue) : Except PyErr JValue :=
  match u, suffix with
  | .s x, .s y => .ok (.s (x ++ y))
  | .i x, .i y => .ok (.i (x + y))
  | _, _ => .error .typeError

/-- Macro registration over a dict-shaped `linkingText` (source lines 399-404). -/
def macroDictLoop (a : JDict) :
    List (Str × JValue) → DocState → Except PyErr DocState
  | [], st => .ok st
  | (t, suffix) :: rest, st =>
    match aget a (str "url") with
    | none => .error (.keyError (str "url"))
    | some u =>
      match pyAdd u suffix with
      | .error e => .error e
      | .ok u' => macroDictLoop a rest (addRef st (pyLower t) (aset a (str "url") u'))

/-- Macro registration over a list-shaped `linkingText` (source lines 405-410). -/
def macroListLoop (simplify : Str → Str) (a : JDict) :
    List JValue → DocState → Except PyErr DocState
  | [], st => .ok st
  | t :: rest, st =>
    match t with
    | .s tv =>
      match aget a (str "url") with
      | none => .error (.keyError (str "url"))
      | some u =>
        match pyAdd u (.s (simplify tv)) with
        | .error e => .error e
        | .ok u' => macroListLoop simplify a rest (addRef st (pyLower tv) (aset a (str "url") u'))
    | _ => .error .typeError   -- simplifyText / .lower() on a non-string

/-- Non-macro registration (source lines 416-417); iterating a dict yields
its keys. -/
def plainListLoop (a : JDict) : List JValue → DocState → Except PyErr DocState
  | [], st => .ok st
  | t :: rest, st =>
    match t with
    | .s tv => plainListLoop a rest (addRef st (pyLower tv) a)
    | _ => .error .attributeError   -- `.lower()` on a non-string

/-- The registration step (source lines 396-417). -/
def doRegister (simplify : Str → Str) (a : JDict) (st : DocState) :
    Except PyErr DocState :=
  if jTruthy (aget a (str "anchor macro")) then
    match aget a (str "linkingText") with
    | none => .error (.keyError (str "linkingText"))
    | some texts =>
      let afterRefs : Except PyErr DocState :=
        match texts with
        | .obj kvs => macroDictLoop a kvs st
        | .arr xs => macroListLoop simplify a xs st
        | _ => .ok st    -- neither dict nor list: both isinstance tests fail, no clones
      match afterRefs with
      | .error e => .error e
      | .ok st' =>
        match aget a (str "spec"), aget a (str "shortname") with
        | some (.s sp), some (.s sh) => .ok (setMacro (setMacro st' sp a) sh a)
        | _, _ => .error .typeError   -- unreachable: both were set to strings above
  else
    match aget a (str "linkingText") with
    | none => .error (.keyError (str "linkingText"))
    | some (.arr xs) => plainListLoop a xs st
    | some (.obj kvs) => plainListLoop a (kvs.map (fun kv => .s kv.1)) st
    | some _ => .error .typeError   -- iterating a non-container

/-- Processing of one anchor descriptor (the body of the
`for anchor in anchors` loop, source lines 342-417).  Returns the new value
of the loop-local `key` along with the updated document state. -/
def processAnchor (simplify : Str → Str) (keyPrev : Option JValue) (av : JValue)
    (st : DocState) : Except PyErr (Option JValue × DocState) := do
  match av with
  | .obj a0 =>
    let st ← reportMissing keyPrev a0
      [str "linkingText", str "type", str "shortname", str "level", str "url"] st
    let a := if ahas a0 (str "for") then a0 else aset a0 (str "for") (.arr [])
    let key ← firstLinkingKey a
    let (a, st) ← doStrField key (str "type") a st
    let (a, st) ← doStrField key (str "shortname") a st
    let (a, st) ← doStrField key (str "url") a st
    let (a, st, skip) ← doStatus key a st
    if skip then
      return (some key, st)
    else
      let (a, st) ← doLevel key a st
      let a ← doSpec a
      let a := aset a (str "export") (.b true)
      let (a, st) ← doListField key (str "linkingText") a st
      let (a, st) ← doListField key (str "for") a st
      let st ← doRegister simplify a st
      return (some key, st)
  | _ => .error .typeError   -- `field not in anchor` on a non-dict descriptor

def anchorsLoop (simplify : Str → Str) :
    Option JValue → List JValue → DocState → Except PyErr DocState
  | _, [], st => .ok st
  | keyPrev, d :: rest, st => do
    let (k, st') ← processAnchor simplify keyPrev d st
    anchorsLoop simplify k rest st'

/-- `transformAnchors(lines, doc)`: the JSON decode is an external
collaborator, so its outcome (`json.loads(''.join(lines))`, the decoded
descriptor array or a parse error) is taken as input.  The returned line
list is the block replacement value. -/
def transformAnchors (simplify : Str → Str) (parsed : Except Str (List JValue))
    (st : DocState) : Except PyErr (List Str × DocState) :=
  match parsed with
  | .error e => .ok ([], addMsg st (.jsonParseError e))
  | .ok ds =>
    match anchorsLoop simplify none ds st with
    | .error e => .error e
    | .ok st' => .ok ([], st')

/-! ## The block scanner (`transformDataBlocks`) -/

/-- `re.match(r"\s*<(pre|xmp)(.*)", line, re.I)`: skip leading whitespace,
require `<`, then `pre` or `xmp` case-insensitively.  Returns
(`group(1)` as matched, `group(2)`). -/
def openMatch (line : Str) : Option (Str × Str) :=
  match pyLstrip line with
  | '<' :: r =>
    if pyLower (r.take 3) = str "pre" || pyLower (r.take 3) = str "xmp" then
      some (r.take 3, r.drop 3)
    else none
  | _ => none

/-- The block-type keywords, in the order of the source dict literal.
(Python 2 dict key order is implementation-defined; the claims checked
here do not depend on the alternation order.) -/
def blockKeywords : List Str :=
  [str "propdef", str "descdef", str "elementdef", str "railroad",
   str "biblio", str "anchors", str "pre"]

/-- `re.search("|".join(blockTypes.keys()), text)` (case-sensitive):
the alternative matching at the leftmost position. -/
def searchKeywords : Str → Option Str
  | [] => none
  | c :: rest =>
    match blockKeywords.find? (fun k => k.isPrefixOf (c :: rest)) with
    | some k => some k
    | none => searchKeywords rest

/-- `(pat.lower()) is a prefix of (s.lower())`: case-insensitive anchor of
the regex fragments below. -/
def ciStarts (pat s : Str) : Bool := (pyLower pat).isPrefixOf (pyLower s)

/-- The closing-tag token `</tagName>`. -/
def closeToken (tag : Str) : Str := '<' :: '/' :: (tag ++ [ '>' ])

/-- The index of the *last* case-insensitive occurrence of `pat` in `s`
(the split point of the greedy `(.*)pat(.*)`), restricted to indices that
are at least `lo`. -/
def lastOccurFrom (pat s : Str) (lo : Nat) : Option Nat :=
  (((List.range (s.length + 1)).filter
      (fun p => decide (lo ≤ p) && ciStarts pat (s.drop p)))).getLast?

/-- `re.match(r"(.*)</tag>(.*)", line, re.I)`: succeeds iff `</tag>` occurs,
splitting at the last occurrence. -/
def closeMatch (tag line : Str) : Option (Str × Str) :=
  match lastOccurFrom (closeToken tag) line 0 with
  | some p => some (line.take p, line.drop (p + (closeToken tag).length))
  | none => none

/-- `re.match(r"\s*(<tag[^>]*>)(.+)</tag>(.*)", line, re.I)`, the same-line
re-parse (source line 58).  `[^>]*` runs to the first `>`; the greedy `(.+)`
places the `</tag>` at its last occurrence with at least one character
before it — with no such occurrence there is no match. -/
def reParseSameLine (tag line : Str) : Option (Str × Str × Str) :=
  let l := pyLstrip line
  if ciStarts ('<' :: tag) l then
    let rest0 := l.drop (tag.length + 1)
    let attrs := rest0.takeWhile (fun c => !(c == '>'))
    match rest0.drop attrs.length with
    | '>' :: rest =>
      match lastOccurFrom (closeToken tag) rest 1 with
      | some p =>
        some (l.take (tag.length + 1 + attrs.length + 1), rest.take p,
              rest.drop (p + (closeToken tag).length))
      | none => none
    | _ => none
  else none

/-- A pending replacement: `start` / `stop` are the Python dict entries
`'start'` / `'end'` (slice bounds as used by the applier), `value` the
replacement lines. -/
structure Rep where
  start : Nat
  stop : Nat
  value : List Str
deriving DecidableEq

/-- The external collaborators threaded through the scanner. -/
structure Params where
  simplify : Str → Str
  jsonParse : Str → Except Str (List JValue)
  railroadSvg : Str → Str

/-- Python slice assignment `lines[s:e] = v` for nonnegative bounds. -/
def pySliceAssign (lines : List Str) (s e : Nat) (v : List Str) : List Str :=
  lines.take s ++ v ++ lines.drop (max s e)

/-- `for rep in reversed(replacements): doc.lines[rep['start']:rep['end']] = rep['value']`
(source lines 99-100). -/
def applyReplacements (reps : List Rep) (lines : List Str) : List Str :=
  reps.reverse.foldl (fun ls r => pySliceAssign ls r.start r.stop r.value) lines

def railroadStyle : Str :=
  str "<style>svg.railroad-diagram\x7bbackground-color:hsl(30,20%,95%);\x7dsvg.railroad-diagram path\x7bstroke-width:3;stroke:black;fill:rgba(0,0,0,0);\x7dsvg.railroad-diagram text\x7bfont:bold 14px monospace;text-anchor:middle;\x7dsvg.railroad-diagram text.label\x7btext-anchor:start;\x7dsvg.railroad-diagram text.comment\x7bfont:italic 12px monospace;\x7dsvg.railroad-diagram rect\x7bstroke-width:3;stroke:black;fill:hsl(120,100%,90%);\x7d</style>"

/-- The `blockTypes` dispatch (source lines 27-35): an unknown key would be
a dict `KeyError`. -/
def runBlock (P : Params) (blockType : Str) (contentLines : List Str)
    (tagName firstLine : Str) (ds : DocState) : Except PyErr (List Str × DocState) :=
  if blockType = str "propdef" then
    let (v, ms) := transformPropdef contentLines firstLine
    .ok (v, addMsgs ds ms)
  else if blockType = str "descdef" then
    let (v, ms) := transformDescdef contentLines firstLine
    .ok (v, addMsgs ds ms)
  else if blockType = str "elementdef" then
    let (v, ms) := transformElementdef contentLines
    .ok (v, addMsgs ds ms)
  else if blockType = str "railroad" then
    .ok ([str "<div class=\x27railroad\x27>", railroadStyle,
          P.railroadSvg (joinAll contentLines), str "</div>"], ds)
  else if blockType = str "biblio" then
    .ok ([], { ds with biblios := ds.biblios ++ [joinAll contentLines] })
  else if blockType = str "anchors" then
    transformAnchors P.simplify (P.jsonParse (joinAll contentLines)) ds
  else if blockType = str "pre" then
    .ok (transformPre contentLines tagName firstLine, ds)
  else .error (.keyError blockType)

structure ScanSt where
  lines : List Str
  inBlock : Bool
  blockType : Str
  tagName : Str
  startLine : Nat
  replacements : List Rep
  ds : DocState

/-- `doc.lines.insert(i+1, x)`. -/
def insertAt (lines : List Str) (i : Nat) (x : Str) : List Str :=
  lines.take i ++ [x] ++ lines.drop i

/-- The scan loop (source lines 40-95).  Python iterates `enumerate(doc.lines)`
over the live, mutated list; modelled by an index recursion with explicit
fuel.  Each iteration advances the index by one and grows the list by at
most one line, and an insertion consumes a block of at least two lines, so
`2 * len + 2` fuel always suffices; `loopLimit` is never reached. -/
def scanLoop (P : Params) : Nat → Nat → ScanSt → Except PyErr ScanSt
  | 0, _, _ => .error .loopLimit
  | fuel + 1, i, st =>
    if i < st.lines.length then
      let line := st.lines.getD i []
      -- `re.match(r"\s*<(pre|xmp)(.*)", line, re.I)` (lines 42-51)
      let st :=
        match openMatch line with
        | some (tag, rest) =>
          if !st.inBlock then
            { st with inBlock := true, startLine := i, tagName := tag,
                      blockType := match searchKeywords rest with
                        | some k => k
                        | none => str "pre" }
          else st
        | none => st
      -- `re.match(r"(.*)</"+tagName+">(.*)", line, re.I)` (lines 53-95)
      match closeMatch st.tagName line with
      | some (g1, g2) =>
        if st.inBlock then
          if st.startLine == i then
            -- single-line block (lines 56-67)
            match reParseSameLine st.tagName line with
            | none => .error .attributeError    -- `match.group(3)` on a failed match
            | some (m1, m2, m3) =>
              let lines' := st.lines.set i m3
              match runBlock P st.blockType [m2] st.tagName m1 st.ds with
              | .error e => .error e
              | .ok (v, ds') =>
                scanLoop P fuel (i + 1)
                  { st with lines := lines', inBlock := false, tagName := [], blockType := [],
                            replacements := st.replacements ++ [⟨i, i, v⟩], ds := ds' }
          else if isBlank g1 then
            -- the end tag was the first thing on the line (lines 68-79)
            let lines' := st.lines.set i g2
            let content := (lines'.drop (st.startLine + 1)).take (i - (st.startLine + 1))
            match runBlock P st.blockType content st.tagName (lines'.getD st.startLine []) st.ds with
            | .error e => .error e
            | .ok (v, ds') =>
              scanLoop P fuel (i + 1)
                { st with lines := lines', inBlock := false, tagName := [], blockType := [],
                          replacements := st.replacements ++ [⟨st.startLine, i, v⟩], ds := ds' }
          else
            -- the end tag follows block content (lines 80-93)
            let lines' := insertAt (st.lines.set i g1) (i + 1) g2
            let content := (lines'.drop (st.startLine + 1)).take ((i + 1) - (st.startLine + 1))
            match runBlock P st.blockType content st.tagName (lines'.getD st.startLine []) st.ds with
            | .error e => .error e
            | .ok (v, ds') =>
              scanLoop P fuel (i + 1)
                { st with lines := lines', inBlock := false, tagName := [], blockType := [],
                          replacements := st.replacements ++ [⟨st.startLine, i + 1, v⟩], ds := ds' }
        else scanLoop P fuel (i + 1) st
      | none => scanLoop P fuel (i + 1) st
    else .ok st

/-- `transformDataBlocks(doc)`: scan, then apply the collected replacements
bottom-up. -/
def transformDataBlocks (P : Params) (lines0 : List Str) (ds0 : DocState) :
    Except PyErr (List Str × DocState) :=
  match scanLoop P (2 * lines0.length + 2) 0 ⟨lines0, false, [], [], 0, [], ds0⟩ with
  | .error e => .error e
  | .ok st => .ok (applyReplacements st.replacements st.lines, st.ds)

/-! ## Result extractors and concrete inputs used by the theorems -/

def okValue (r : Except PyErr (List Str × DocState)) : Option (List Str) :=
  match r with
  | .ok (v, _) => some v
  | .error _ => none

def okState (r : Except PyErr (List Str × DocState)) : Option DocState :=
  match r with
  | .ok (_, ds) => some ds
  | .error _ => none

def okRefKeys (r : Except PyErr (List Str × DocState)) : Option (List Str) :=
  (okState r).map fun ds => ds.refs.map Prod.fst

def okMsgs (r : Except PyErr (List Str × DocState)) : Option (List Msg) :=
  (okState r).map DocState.msgs

def firstRef (r : Except PyErr (List Str × DocState)) : Option JDict :=
  match okState r with
  | some ds =>
    match ds.refs with
    | (_, a) :: _ => some a
    | [] => none
  | none => none

def firstRefField (r : Except PyErr (List Str × DocState)) (f : Str) : Option JValue :=
  match firstRef r with
  | some a => aget a f
  | none => none

def statusOf (r : Except PyErr (List Str × DocState)) : Option JValue :=
  firstRefField r (str "status")

def firstRefUrl (r : Except PyErr (List Str × DocState)) : Option JValue :=
  firstRefField r (str "url")

def macroAt (r : Except PyErr (List Str × DocState)) (k : Str) : Option JDict :=
  match okState r with
  | some ds => aget ds.anchorMacros k
  | none => none

/-- Run the anchor ingester on already-decoded descriptors, with the
identity text simplifier and a fresh reference index. -/
def runAnchors (ds : List JValue) : Except PyErr (List Str × DocState) :=
  transformAnchors (fun s => s) (.ok ds) emptyDS

/-- A well-formed non-macro descriptor with the given linking text and url. -/
def plainAnchor (lt url : Str) : JValue :=
  .obj [(str "linkingText", .s lt), (str "type", .s (str "dfn")),
        (str "shortname", .s (str "sh")), (str "level", .s (str "1")),
        (str "url", .s url)]

/-- The same descriptor shape with the required `url` field omitted. -/
def anchorNoUrl (lt : Str) : JValue :=
  .obj [(str "linkingText", .s lt), (str "type", .s (str "dfn")),
        (str "shortname", .s (str "sh")), (str "level", .s (str "1"))]

/-- A well-formed descriptor carrying the given `status` value (or none). -/
def statusDescr (stv : Option JValue) : JValue :=
  .obj ([(str "linkingText", .s (str "t")), (str "type", .s (str "dfn")),
         (str "shortname", .s (str "sh")), (str "level", .s (str "1")),
         (str "url", .s (str "u"))] ++
        (match stv with
         | some x => [(str "status", x)]
         | none => []))

/-- The macro descriptor of claim C3: a mapping linking text
`{"foo": "#bar"}` with base url `spec.html`. -/
def macroDescr : JValue :=
  .obj [(str "linkingText", .obj [(str "foo", .s (str "#bar"))]),
        (str "type", .s (str "dfn")), (str "shortname", .s (str "sh")),
        (str "level", .s (str "1")), (str "url", .s (str "spec.html")),
        (str "anchor macro", .b true)]

/-- Scanner parameters whose external JSON parser is never consulted. -/
def P0 : Params := ⟨fun s => s, fun _ => .error [], fun _ => []⟩

/-- Scanner parameters whose external JSON parser fails with message `e`. -/
def badParseParams (e : Str) : Params := ⟨fun s => s, fun _ => .error e, fun _ => []⟩

/-- A document with one `anchors` block of unparseable content, followed by
a further document line. -/
def anchorsBadDoc : List Str :=
  [str "<pre class=anchors>", str "\x7bbad", str "</pre>", str "tail"]

/-- The replacement applier as the specification reads it: `end` taken as
an *inclusive* line index, i.e. each application replaces
`lines[start..end]` including line `end`.  Stated only for comparison with
`applyReplacements`, which embeds the source. -/
def applyReplacementsInclusive (reps : List Rep) (lines : List Str) : List Str :=
  reps.reverse.foldl (fun ls r => ls.take r.start ++ r.value ++ ls.drop (r.stop + 1)) lines

/-! ## Dedent lemmas (for claim C8) -/

theorem isBlank_iff (l : Str) : isBlank l = true ↔ ∀ c ∈ l, pyIsSpace c = true := by
  unfold isBlank pyStrip pyRstrip pyLstrip
  rw [List.isEmpty_iff, List.reverse_eq_nil_iff, List.dropWhile_eq_nil_iff]
  constructor
  · intro h c hc
    rw [← List.takeWhile_append_dropWhile pyIsSpace l] at hc
    rcases List.mem_append.1 hc with h1 | h2
    · exact List.mem_takeWhile_imp h1
    · exact h c (List.mem_reverse.2 h2)
  · intro h c hc
    exact h c ((List.dropWhile_sublist pyIsSpace).mem (List.mem_reverse.1 hc))

theorem isBlank_expandTabs (l : Str) : isBlank (expandTabs l) = isBlank l := by
  rw [Bool.eq_iff_iff, isBlank_iff, isBlank_iff]
  constructor
  · intro h c hc
    by_cases hct : c = '\t'
    · subst hct; rfl
    · refine h c (List.mem_flatMap.2 ⟨c, hc, ?_⟩)
      simp [hct]
  · intro h c hc
    obtain ⟨b, hb, hcb⟩ := List.mem_flatMap.1 hc
    by_cases hbt : (b == '\t') = true
    · rw [if_pos hbt] at hcb
      have : c = ' ' := by simpa using hcb
      subst this; rfl
    · rw [if_neg hbt] at hcb
      have : c = b := by simpa using hcb
      subst this; exact h c hb

theorem leadingSpaces_cons (c : Char) (l : Str) :
    leadingSpaces (c :: l) = if c == ' ' then leadingSpaces l + 1 else 0 := by
  by_cases h : (c == ' ') = true <;>
    simp [leadingSpaces, List.takeWhile_cons, h]

theorem leadingSpaces_drop (n : Nat) (l : Str) (h : n ≤ leadingSpaces l) :
    leadingSpaces (l.drop n) = leadingSpaces l - n := by
  induction n generalizing l with
  | zero => simp
  | succ k ih =>
    match l with
    | [] => simp [leadingSpaces] at h
    | c :: rest =>
      by_cases hc : (c == ' ') = true
      · rw [leadingSpaces_cons, if_pos hc] at h
        rw [List.drop_succ_cons, leadingSpaces_cons, if_pos hc]
        rw [ih rest (Nat.le_of_succ_le_succ h)]
        omega
      · rw [leadingSpaces_cons, if_neg hc] at h
        omega

theorem take_spaces (n : Nat) (l : Str) (h : n ≤ leadingSpaces l) :
    ∀ c ∈ l.take n, c = ' ' := by
  induction n generalizing l with
  | zero => simp
  | succ k ih =>
    match l with
    | [] => simp
    | c :: rest =>
      by_cases hc : (c == ' ') = true
      · intro d hd
        rw [List.take_succ_cons] at hd
        rcases List.mem_cons.1 hd with h1 | h2
        · subst h1; simpa using hc
        · refine ih rest ?_ d h2
          rw [leadingSpaces_cons, if_pos hc] at h
          omega
      · rw [leadingSpaces_cons, if_neg hc] at h
        omega

theorem isBlank_drop_of_le (n : Nat) (l : Str) (h : n ≤ leadingSpaces l) :
    isBlank (l.drop n) = isBlank l := by
  rw [Bool.eq_iff_iff, isBlank_iff, isBlank_iff]
  constructor
  · intro hall c hc
    rw [← List.take_append_drop n l] at hc
    rcases List.mem_append.1 hc with h1 | h2
    · have : c = ' ' := take_spaces n l h c h1
      subst this; rfl
    · exact hall c h2
  · intro hall c hc
    exact hall c (List.mem_of_mem_drop hc)

theorem mem_expandTabs_not_tab (l : Str) (c : Char) (hc : c ∈ expandTabs l) :
    (c == '\t') = false := by
  obtain ⟨b, hb, hcb⟩ := List.mem_flatMap.1 hc
  by_cases hbt : (b == '\t') = true
  · rw [if_pos hbt] at hcb
    have : c = ' ' := by simpa using hcb
    subst this; rfl
  · rw [if_neg hbt] at hcb
    have : c = b := by simpa using hcb
    subst this; simpa using hbt

theorem expandTabs_eq_self (l : Str) (h : ∀ c ∈ l, (c == '\t') = false) :
    expandTabs l = l := by
  induction l with
  | nil => rfl
  | cons c rest ih =>
    show (if c == '\t' then [' ', ' '] else [c]) ++ expandTabs rest = c :: rest
    rw [if_neg (by simp [h c (List.mem_cons_self c rest)]),
        ih (fun d hd => h d (List.mem_cons_of_mem c hd))]
    rfl

theorem min?_eq_some_of (xs : List Nat) (L : Nat) (hm : L ∈ xs)
    (hle : ∀ x ∈ xs, L ≤ x) : xs.min? = some L := by
  refine (List.min?_eq_some_iff ?_ ?_ ?_).2 ⟨hm, hle⟩
  · exact fun a => Nat.le_refl a
  · intro a b; rw [Nat.min_def]; split
    · exact Or.inl rfl
    · exact Or.inr rfl
  · exact fun a b c => Nat.le_min

theorem dedentIndent_eq (ls : List Str) (L : Nat)
    (h1 : ∀ l ∈ ls, isBlank l = false → L ≤ leadingSpaces (expandTabs l))
    (h2 : ∃ l ∈ ls, isBlank l = false ∧ leadingSpaces (expandTabs l) = L) :
    dedentIndent (dedentExpand ls) = L := by
  have hfe : ∀ l ∈ ls, isBlank (if isBlank l then l else expandTabs l) = isBlank l := by
    intro l _
    by_cases hb : isBlank l = true
    · rw [if_pos hb]
    · rw [if_neg hb, isBlank_expandTabs]
  have hfilter :
      (dedentExpand ls).filter (fun l => !(isBlank l)) =
        (ls.filter (fun l => !(isBlank l))).map
          (fun l => if isBlank l then l else expandTabs l) := by
    unfold dedentExpand
    rw [List.filter_map]
    congr 1
    apply List.filter_congr
    intro a ha
    simp only [Function.comp_apply]
    rw [hfe a ha]
  have hmap :
      ((ls.filter (fun l => !(isBlank l))).map
          (fun l => if isBlank l then l else expandTabs l)).map leadingSpaces =
        (ls.filter (fun l => !(isBlank l))).map
          (fun l => leadingSpaces (expandTabs l)) := by
    rw [List.map_map]
    apply List.map_congr_left
    intro a ha
    have hb : isBlank a = false := by
      simpa using (List.mem_filter.1 ha).2
    simp [Function.comp, hb]
  have hmin :
      ((ls.filter (fun l => !(isBlank l))).map
          (fun l => leadingSpaces (expandTabs l))).min? = some L := by
    apply min?_eq_some_of
    · obtain ⟨l0, hl0, hb0, hL0⟩ := h2
      exact List.mem_map.2 ⟨l0, List.mem_filter.2 ⟨hl0, by simp [hb0]⟩, hL0⟩
    · intro x hx
      obtain ⟨l, hl, hlx⟩ := List.mem_map.1 hx
      have hmem := List.mem_filter.1 hl
      have hb : isBlank l = false := by simpa using hmem.2
      exact hlx ▸ h1 l hmem.1 hb
  unfold dedentIndent
  rw [hfilter, hmap, hmin]

theorem dedentCore_eq_of_min (ls : List Str) (L : Nat)
    (hind : dedentIndent (dedentExpand ls) = L) :
    dedentCore ls = ls.map (fun l => if isBlank l then l else (expandTabs l).drop L) := by
  show (dedentExpand ls).map
      (fun l => if isBlank l then l else l.drop (dedentIndent (dedentExpand ls))) = _
  rw [hind]
  unfold dedentExpand
  rw [List.map_map]
  apply List.map_congr_left
  intro a _
  by_cases hb : isBlank a = true
  · simp [Function.comp, hb]
  · have hb' : isBlank a = false := by simpa using hb
    simp [Function.comp, hb', isBlank_expandTabs]

/-- Every line of a dedented list is left unchanged by a further dedent:
its nonblank lines are tab-free with minimal indent 0. -/
theorem dedent_fixed (ls : List Str) (L : Nat)
    (h1 : ∀ l ∈ ls, isBlank l = false → L ≤ leadingSpaces (expandTabs l))
    (h2 : ∃ l ∈ ls, isBlank l = false ∧ leadingSpaces (expandTabs l) = L) :
    dedentCore (ls.map (fun l => if isBlank l then l else (expandTabs l).drop L)) =
      ls.map (fun l => if isBlank l then l else (expandTabs l).drop L) := by
  have hfix : ∀ y ∈ ls.map (fun l => if isBlank l then l else (expandTabs l).drop L),
      (if isBlank y then y else expandTabs y) = y := by
    intro y hy
    obtain ⟨l, hl, rfl⟩ := List.mem_map.1 hy
    by_cases hb : isBlank l = true
    · simp [hb]
    · have hb' : isBlank l = false := by simpa using hb
      have hble : L ≤ leadingSpaces (expandTabs l) := h1 l hl hb'
      have hbd : isBlank ((expandTabs l).drop L) = false := by
        rw [isBlank_drop_of_le L _ hble, isBlank_expandTabs, hb']
      have hnt : expandTabs ((expandTabs l).drop L) = (expandTabs l).drop L := by
        apply expandTabs_eq_self
        intro c hc
        exact mem_expandTabs_not_tab l c (List.mem_of_mem_drop hc)
      simp [hb', hbd, hnt]
  have hexp : dedentExpand (ls.map (fun l => if isBlank l then l else (expandTabs l).drop L)) =
      ls.map (fun l => if isBlank l then l else (expandTabs l).drop L) := by
    unfold dedentExpand
    exact (List.map_congr_left hfix).trans (List.map_id _)
  have h2' : ∃ y ∈ ls.map (fun l => if isBlank l then l else (expandTabs l).drop L),
      isBlank y = false ∧ leadingSpaces (expandTabs y) = 0 := by
    obtain ⟨l1, hl1, hb1, hL1⟩ := h2
    refine ⟨(expandTabs l1).drop L, List.mem_map.2 ⟨l1, hl1, by simp [hb1]⟩, ?_, ?_⟩
    · rw [isBlank_drop_of_le L _ hL1.ge, isBlank_expandTabs, hb1]
    · rw [expandTabs_eq_self _ (fun c hc => mem_expandTabs_not_tab l1 c (List.mem_of_mem_drop hc)),
          leadingSpaces_drop L _ hL1.ge, hL1]
      omega
  have hind2 : dedentIndent (dedentExpand
      (ls.map (fun l => if isBlank l then l else (expandTabs l).drop L))) = 0 :=
    dedentIndent_eq _ 0 (fun _ _ _ => Nat.zero_le _) h2'
  rw [dedentCore_eq_of_min _ 0 hind2]
  refine (List.map_congr_left ?_).trans (List.map_id _)
  intro y hy
  by_cases hb : isBlank y = true
  · simp [hb]
  · have hb' : isBlank y = false := by simpa using hb
    have hfy := hfix y hy
    rw [if_neg hb] at hfy
    simp [hb', hfy]

/-! ## Claim theorems -/

/-- Claim C1 (code side): a 3-descriptor `anchors` array where the middle
descriptor lacks `url` does NOT ingest the other two with one non-fatal
diagnostic; instead the ingester raises `KeyError` at
`anchor["url"].strip()` (the claimed behavior holds only for the
fully well-formed pair, second and third conjuncts). -/
theorem anchors_missing_url_keyerror :
    runAnchors [plainAnchor (str "a") (str "u1"), anchorNoUrl (str "b"),
                plainAnchor (str "c") (str "u3")] = .error (.keyError (str "url")) ∧
    okRefKeys (runAnchors [plainAnchor (str "a") (str "u1"),
                           plainAnchor (str "c") (str "u3")]) =
      some [str "a\n", str "c\n"] ∧
    okMsgs (runAnchors [plainAnchor (str "a") (str "u1"),
                        plainAnchor (str "c") (str "u3")]) = some [] :=
  ⟨rfl, rfl, rfl⟩

/-- Claim C2 (counterexample): a descriptor whose `status` is `current` is
stored with internal status `TR\n`, not `ED` — the comparison
`anchor["status"] == "current\n"` tests the raw value, which never carries
the trailing newline. -/
theorem status_current_stored_TR :
    statusOf (runAnchors [statusDescr (some (.s (str "current")))]) =
      some (.s (str "TR\n")) ∧
    str "TR\n" ≠ str "ED" ∧ str "TR\n" ≠ str "ED\n" :=
  ⟨rfl, by decide, by decide⟩

/-- Claim C2 (amended): a present `status` must be one of
current / dated / local, otherwise the descriptor is reported and skipped;
every *valid* present status is stored as `TR\n` (the `ED\n` branch can
never fire for a parsed value), and an absent status defaults to `local`. -/
theorem status_normalization :
    statusOf (runAnchors [statusDescr (some (.s (str "current")))]) =
      some (.s (str "TR\n")) ∧
    statusOf (runAnchors [statusDescr (some (.s (str "dated")))]) =
      some (.s (str "TR\n")) ∧
    statusOf (runAnchors [statusDescr (some (.s (str "local")))]) =
      some (.s (str "TR\n")) ∧
    statusOf (runAnchors [statusDescr none]) = some (.s (str "local")) ∧
    okRefKeys (runAnchors [statusDescr (some (.s (str "bogus")))]) = some [] ∧
    okMsgs (runAnchors [statusDescr (some (.s (str "bogus")))]) =
      some [.anchorBadStatus (.s (str "t")) (str "bogus")] :=
  ⟨rfl, rfl, rfl, rfl, rfl, rfl⟩

/-- Claim C3 (counterexample): the macro descriptor with
`linkingText = \x7b"foo": "#bar"\x7d` and `url = "spec.html"` registers its
clone under the key `foo\n` (not `foo`) with url `spec.html\n#bar`
(not `spec.html#bar`): the string normalization appends a newline to the
stored key and base url before the suffix is concatenated. -/
theorem macro_clone_key_and_url :
    okRefKeys (runAnchors [macroDescr]) = some [str "foo\n"] ∧
    firstRefUrl (runAnchors [macroDescr]) = some (.s (str "spec.html\n#bar")) ∧
    str "foo\n" ≠ str "foo" ∧
    str "spec.html\n#bar" ≠ str "spec.html#bar" :=
  ⟨rfl, rfl, by decide, by decide⟩

/-- Claim C3 (amended): the macro descriptor registers exactly one clone,
under the lowercased *normalized* term `foo\n`, whose url is the stored
(stripped, newline-suffixed) base url concatenated with the suffix,
`spec.html\n#bar`; the macro itself is stored in the macro index and is
retrievable both by its spec id `sh-1\n` and by its shortname `sh\n`. -/
theorem macro_registration :
    okRefKeys (runAnchors [macroDescr]) = some [str "foo\n"] ∧
    firstRefUrl (runAnchors [macroDescr]) = some (.s (str "spec.html\n#bar")) ∧
    macroAt (runAnchors [macroDescr]) (str "sh-1\n") =
      macroAt (runAnchors [macroDescr]) (str "sh\n") ∧
    (macroAt (runAnchors [macroDescr]) (str "sh-1\n")).isSome = true ∧
    okMsgs (runAnchors [macroDescr]) = some [] :=
  ⟨rfl, rfl, rfl, rfl, rfl⟩

/-- Claim C4 (code side): a `descdef` block whose first line contains
`partial` (and not `mq`) is rendered with the DEFAULT variant: the partial
branch assignments are dead stores (the following `if`/`else` is not an
`elif` and always rebinds them), so the table head lacks the `partial`
class, an absent `Value` still renders an (empty) row, and the absent
`Initial` raises a SchemaError — contradicting the claimed
required-fields-exactly-Name-and-For behavior. -/
theorem descdef_partial_uses_default_schema :
    transformDescdef [str "Name: foo", str "For: @media"]
        (str "<pre class=\x27descdef partial\x27>") =
      ([str "<table class=\x27definition descdef\x27 data-dfn-for=\x27@media\x27>",
        str "<tr><th>Name:<td>foo",
        str "<tr><th>For:<td><a at-rule>@media</a>",
        str "<tr><th>Value:<td class=\x27prod\x27>",
        str "</table>"],
       [Msg.missingLine (str "descdef") (str "foo") (str "Initial")]) :=
  rfl

/-- Claim C5 (counterexample): applying the replacement
`start = 0, end = 1, value = [A]` to `[x, y]` yields `[A, y]` — the line at
index `end` is NOT replaced, contradicting the claimed inclusive span
(which would yield `[A]`, as the spec-reading applier shows). -/
theorem applier_end_exclusive_cex :
    applyReplacements [⟨0, 1, [str "A"]⟩] [str "x", str "y"] = [str "A", str "y"] ∧
    applyReplacementsInclusive [⟨0, 1, [str "A"]⟩] [str "x", str "y"] = [str "A"] ∧
    ([str "A", str "y"] : List Str) ≠ [str "A"] :=
  ⟨rfl, rfl, by decide⟩

/-- Claim C5 (amended): the applier processes the collected replacements
strictly from highest `start` to lowest (the last-collected, highest-start
replacement is applied first), and each application replaces the document
lines from index `start` up to but EXCLUDING index `end` with the value
(Python half-open slice assignment). -/
theorem applier_descending_halfopen (reps : List Rep) (r : Rep) (lines : List Str)
    (h : ∀ x ∈ reps, x.start < r.start) :
    applyReplacements (reps ++ [r]) lines =
      applyReplacements reps
        (lines.take r.start ++ r.value ++ lines.drop (max r.start r.stop)) := by
  simp [applyReplacements, pySliceAssign]

theorem applier_descending_halfopen_witness :
    (∀ x ∈ [(⟨0, 1, [str "A"]⟩ : Rep)], x.start < (⟨2, 3, [str "B"]⟩ : Rep).start) ∧
    applyReplacements [⟨0, 1, [str "A"]⟩, ⟨2, 3, [str "B"]⟩]
        [str "a", str "b", str "c", str "d"] =
      applyReplacements [⟨0, 1, [str "A"]⟩]
        ([str "a", str "b", str "c", str "d"].take 2 ++ [str "B"] ++
         [str "a", str "b", str "c", str "d"].drop (max 2 3)) :=
  ⟨by decide, applier_descending_halfopen [⟨0, 1, [str "A"]⟩] ⟨2, 3, [str "B"]⟩
     [str "a", str "b", str "c", str "d"] (by decide)⟩

/-- Claim C6: a default-variant propdef record with exactly the fields
Name, Value, Initial, Inherited renders exactly nine table rows, one per
schema field in declared order, with the optional fields showing their
literal defaults. -/
theorem propdef_default_nine_rows (n v i0 inh fl : Str)
    (hp : strIn (str "partial") fl = false)
    (hs : strIn (str "shorthand") fl = false) :
    propdefTable [(str "Name", n), (str "Value", v), (str "Initial", i0),
                  (str "Inherited", inh)] fl =
      ([str "<table class=\x27definition propdef\x27>",
        str "<tr><th>Name:<td>" ++ n,
        str "<tr><th>Value:<td class=\x27prod\x27>" ++ v,
        str "<tr><th>Initial:<td>" ++ i0,
        str "<tr><th>Applies to:<td>all elements",
        str "<tr><th>Inherited:<td>" ++ inh,
        str "<tr><th>Percentages:<td>n/a",
        str "<tr><th>Media:<td>visual",
        str "<tr><th>Computed value:<td>as specified",
        str "<tr><th>Animatable:<td>no",
        str "</table>"], []) := by
  simp only [propdefTable, propdefAttrs, propdefHead, hp, hs]
  rfl

theorem propdef_default_nine_rows_witness :
    strIn (str "partial") (str "<pre class=propdef>") = false ∧
    strIn (str "shorthand") (str "<pre class=propdef>") = false ∧
    propdefTable [(str "Name", str "N"), (str "Value", str "V"),
                  (str "Initial", str "I"), (str "Inherited", str "H")]
        (str "<pre class=propdef>") =
      ([str "<table class=\x27definition propdef\x27>",
        str "<tr><th>Name:<td>" ++ str "N",
        str "<tr><th>Value:<td class=\x27prod\x27>" ++ str "V",
        str "<tr><th>Initial:<td>" ++ str "I",
        str "<tr><th>Applies to:<td>all elements",
        str "<tr><th>Inherited:<td>" ++ str "H",
        str "<tr><th>Percentages:<td>n/a",
        str "<tr><th>Media:<td>visual",
        str "<tr><th>Computed value:<td>as specified",
        str "<tr><th>Animatable:<td>no",
        str "</table>"], []) :=
  ⟨rfl, rfl, propdef_default_nine_rows (str "N") (str "V") (str "I") (str "H")
     (str "<pre class=propdef>") rfl rfl⟩

/-- Claim C7: a default-variant propdef record with Name, Value, Initial
present (plus one extra key) but missing `Inherited` reports exactly one
SchemaError naming the record Name, omits the Inherited row, and renders
every other schema row and the extra row normally. -/
theorem propdef_missing_inherited (n v i0 x fl : Str)
    (hp : strIn (str "partial") fl = false)
    (hs : strIn (str "shorthand") fl = false) :
    propdefTable [(str "Name", n), (str "Value", v), (str "Initial", i0),
                  (str "Syntax", x)] fl =
      ([str "<table class=\x27definition propdef\x27>",
        str "<tr><th>Name:<td>" ++ n,
        str "<tr><th>Value:<td class=\x27prod\x27>" ++ v,
        str "<tr><th>Initial:<td>" ++ i0,
        str "<tr><th>Applies to:<td>all elements",
        str "<tr><th>Percentages:<td>n/a",
        str "<tr><th>Media:<td>visual",
        str "<tr><th>Computed value:<td>as specified",
        str "<tr><th>Animatable:<td>no",
        str "<tr><th>Syntax:<td>" ++ x,
        str "</table>"],
       [Msg.missingLine (str "propdef") n (str "Inherited")]) := by
  simp only [propdefTable, propdefAttrs, propdefHead, hp, hs]
  rfl

theorem propdef_missing_inherited_witness :
    strIn (str "partial") (str "<pre class=propdef>") = false ∧
    strIn (str "shorthand") (str "<pre class=propdef>") = false ∧
    propdefTable [(str "Name", str "N"), (str "Value", str "V"),
                  (str "Initial", str "I"), (str "Syntax", str "S")]
        (str "<pre class=propdef>") =
      ([str "<table class=\x27definition propdef\x27>",
        str "<tr><th>Name:<td>" ++ str "N",
        str "<tr><th>Value:<td class=\x27prod\x27>" ++ str "V",
        str "<tr><th>Initial:<td>" ++ str "I",
        str "<tr><th>Applies to:<td>all elements",
        str "<tr><th>Percentages:<td>n/a",
        str "<tr><th>Media:<td>visual",
        str "<tr><th>Computed value:<td>as specified",
        str "<tr><th>Animatable:<td>no",
        str "<tr><th>Syntax:<td>" ++ str "S",
        str "</table>"],
       [Msg.missingLine (str "propdef") (str "N") (str "Inherited")]) :=
  ⟨rfl, rfl, propdef_missing_inherited (str "N") (str "V") (str "I") (str "S")
     (str "<pre class=propdef>") rfl rfl⟩

set_option maxHeartbeats 2000000 in
/-- Claim C9: a JSON parse failure in an `anchors` block reports exactly
one diagnostic, registers zero anchors, yields an empty replacement (the
block is deleted from the document), and a full document run over a
4-line document with such a block still terminates normally and keeps the
line after the block. -/
theorem anchors_parse_failure_nonfatal (e : Str) (st ds0 : DocState) :
    transformAnchors (fun s => s) (.error e) st =
      .ok ([], addMsg st (.jsonParseError e)) ∧
    transformDataBlocks (badParseParams e) anchorsBadDoc ds0 =
      .ok ([[], str "tail"], addMsg ds0 (.jsonParseError e)) :=
  ⟨rfl, rfl⟩

/-- Claim C8: for content lines whose minimum leading-space count over the
non-blank (tab-expanded) lines is L, the generic pre-block dedent removes
exactly L leading columns from every non-blank line and none from blank
lines, and applying the dedent a second time to the already-dedented
content leaves every line unchanged. -/
theorem dedent_min_columns_idempotent (ls : List Str) (L : Nat)
    (h1 : ∀ l ∈ ls, isBlank l = false → L ≤ leadingSpaces (expandTabs l))
    (h2 : ∃ l ∈ ls, isBlank l = false ∧ leadingSpaces (expandTabs l) = L) :
    dedentCore ls = ls.map (fun l => if isBlank l then l else (expandTabs l).drop L) ∧
    dedentCore (dedentCore ls) = dedentCore ls := by
  have heq := dedentCore_eq_of_min ls L (dedentIndent_eq ls L h1 h2)
  refine ⟨heq, ?_⟩
  rw [heq]
  exact dedent_fixed ls L h1 h2

theorem dedent_min_columns_idempotent_witness :
    (∀ l ∈ [str "  a", str "", str " \tb"], isBlank l = false →
       2 ≤ leadingSpaces (expandTabs l)) ∧
    (∃ l ∈ [str "  a", str "", str " \tb"], isBlank l = false ∧
       leadingSpaces (expandTabs l) = 2) ∧
    (dedentCore [str "  a", str "", str " \tb"] =
       [str "  a", str "", str " \tb"].map
         (fun l => if isBlank l then l else (expandTabs l).drop 2) ∧
     dedentCore (dedentCore [str "  a", str "", str " \tb"]) =
       dedentCore [str "  a", str "", str " \tb"]) :=
  ⟨by decide, by decide,
   dedent_min_columns_idempotent [str "  a", str "", str " \tb"] 2 (by decide) (by decide)⟩

set_option maxHeartbeats 2000000 in
/-- Claim C10: on the same-line block `<pre></pre>` (empty inner content)
the re-parse regex has no match and the scanner dereferences the absent
match object (modelled as `attributeError`), while with one character of
inner content the same line shape is processed normally. -/
theorem scanner_empty_sameline_crashes :
    transformDataBlocks P0 [str "<pre></pre>"] emptyDS = .error .attributeError ∧
    transformDataBlocks P0 [str "<pre>x</pre>"] emptyDS =
      .ok ([str "<pre>x", str "</pre>", []], emptyDS) :=
  ⟨rfl, rfl⟩

end Datablocks
